import Mathlib

/-!
Verification of the gcad G-code compiler core against its specification.

The Rust source is shallowly embedded: `f64` values are modelled as exact
rationals (ℚ), so IEEE-754 rounding, NaN, infinities and signed zero are
outside the model; `i64`/`usize` become ℤ/ℕ with the saturating casts of
`as` modelled by `Int.toNat` where they occur; Rust functions returning
`Result` become `Except String`, and a Rust `panic!` is modelled by an
explicit `crash` outcome, distinct from any returned value.
-/

namespace Gcad

/-- Physical units of a script number, from `numbers.rs` (`enum Unit`). -/
inductive Unit where
  | MM | CM | M
  | FT | IN | YD
  | None
deriving DecidableEq, Repr

/-- Magnitude of a script number, from `numbers.rs` (`enum InnerValue`):
an `i64` integer or an `f64` float (modelled as ℚ). -/
inductive InnerValue where
  | Integer (i : ℤ)
  | Float (f : ℚ)
deriving DecidableEq, Repr

namespace InnerValue

/-- Source: `InnerValue::as_float`. -/
def as_float : InnerValue → ℚ
  | .Integer i => (i : ℚ)
  | .Float f => f

/-- Source: `impl Add for InnerValue`. -/
def add : InnerValue → InnerValue → InnerValue
  | .Integer i, .Integer j => .Integer (i + j)
  | .Integer i, .Float j => .Float ((i : ℚ) + j)
  | .Float i, .Float j => .Float (i + j)
  | .Float i, .Integer j => .Float (i + (j : ℚ))

/-- Source: `impl Sub for InnerValue`. -/
def sub : InnerValue → InnerValue → InnerValue
  | .Integer i, .Integer j => .Integer (i - j)
  | .Integer i, .Float j => .Float ((i : ℚ) - j)
  | .Float i, .Float j => .Float (i - j)
  | .Float i, .Integer j => .Float (i - (j : ℚ))

/-- Source: `impl Mul for InnerValue`. -/
def mul : InnerValue → InnerValue → InnerValue
  | .Integer i, .Integer j => .Integer (i * j)
  | .Integer i, .Float j => .Float ((i : ℚ) * j)
  | .Float i, .Float j => .Float (i * j)
  | .Float i, .Integer j => .Float (i * (j : ℚ))

/-- Source: `impl Div for InnerValue`; division always promotes to float. -/
def div : InnerValue → InnerValue → InnerValue
  | .Integer i, .Integer j => .Float ((i : ℚ) / (j : ℚ))
  | .Integer i, .Float j => .Float ((i : ℚ) / j)
  | .Float i, .Float j => .Float (i / j)
  | .Float i, .Integer j => .Float (i / (j : ℚ))

end InnerValue

/-- A unit-tagged number, from `numbers.rs` (`struct Number`). -/
structure Number where
  value : InnerValue
  unit : Unit
deriving DecidableEq, Repr

namespace Number

/-- Source: `Number::from_float`. -/
def from_float (f : ℚ) : Number := ⟨.Float f, .None⟩

/-- Source: `Number::from_int`. -/
def from_int (i : ℤ) : Number := ⟨.Integer i, .None⟩

/-- Source: `Number::as_float`, which succeeds only on unitless numbers. -/
def as_float (n : Number) : Option ℚ :=
  match n.value, n.unit with
  | .Integer i, .None => some (i : ℚ)
  | .Float f, .None => some f
  | _, _ => none

/-- Source: `Number::convert_unit`, the full 36-arm pairwise match of
`numbers.rs`, each arm transcribed with its literal factor. -/
def convert_unit (n : Number) (unit : Unit) : Number :=
  let value := n.value.as_float
  let value : InnerValue :=
    match n.unit, unit with
    | .None, _ => n.value
    | _, .None => n.value
    | .MM, .MM => n.value
    | .MM, .CM => .Float (value / 10)
    | .MM, .M => .Float (value / 1000)
    | .MM, .IN => .Float (value / (254/10))
    | .MM, .FT => .Float (value / (3048/10))
    | .MM, .YD => .Float (value / (9144/10))
    | .CM, .MM => .Float (value * 10)
    | .CM, .CM => n.value
    | .CM, .M => .Float (value / 100)
    | .CM, .IN => .Float (value / (254/100))
    | .CM, .FT => .Float (value / (3048/100))
    | .CM, .YD => .Float (value / (9144/100))
    | .M, .MM => .Float (value * 1000)
    | .M, .CM => .Float (value * 100)
    | .M, .M => n.value
    | .M, .IN => .Float (value / (254/10000))
    | .M, .FT => .Float (value / (3048/10000))
    | .M, .YD => .Float (value / (9144/10000))
    | .IN, .MM => .Float (value * (254/10))
    | .IN, .CM => .Float (value * (254/100))
    | .IN, .M => .Float (value * (254/10000))
    | .IN, .IN => n.value
    | .IN, .FT => .Float (value / 12)
    | .IN, .YD => .Float (value / 36)
    | .FT, .MM => .Float (value * 12 * (254/10))
    | .FT, .CM => .Float (value * 12 * (254/100))
    | .FT, .M => .Float (value * 12 * (254/10000))
    | .FT, .IN => .Float (value * 12)
    | .FT, .FT => n.value
    | .FT, .YD => .Float (value / 3)
    | .YD, .MM => .Float (value * 3 * 12 * (254/10))
    | .YD, .CM => .Float (value * 3 * 12 * (254/100))
    | .YD, .M => .Float (value * 3 * 12 * (254/10000))
    | .YD, .IN => .Float (value * 3 * 12)
    | .YD, .FT => .Float (value * 3)
    | .YD, .YD => n.value
  ⟨value, unit⟩

end Number

/-- Source: `convert_units_for_math` of `numbers.rs`: the destination unit is
the left operand's unit unless the left operand is unitless, in which case it
is the right operand's unit; both operands are converted to it. -/
def convert_units_for_math (lhs rhs : Number) : Number × Number :=
  let dst_unit := if lhs.unit = Unit.None then rhs.unit else lhs.unit
  (lhs.convert_unit dst_unit, rhs.convert_unit dst_unit)

/-- The four binary arithmetic operators of the script language. -/
inductive MathOp where
  | add | sub | mul | div
deriving DecidableEq, Repr

/-- Dispatch a `MathOp` to the corresponding `InnerValue` operation. -/
def InnerValue.applyOp : MathOp → InnerValue → InnerValue → InnerValue
  | .add => InnerValue.add
  | .sub => InnerValue.sub
  | .mul => InnerValue.mul
  | .div => InnerValue.div

/-- Source: the `math_impl!` instances of `numbers.rs`: convert the operands
with `convert_units_for_math`, apply the operation to the magnitudes, and take
the converted left operand's unit. -/
def Number.applyOp (op : MathOp) (a b : Number) : Number :=
  let p := convert_units_for_math a b
  ⟨InnerValue.applyOp op p.1.value p.2.value, p.1.unit⟩

instance : Add Number := ⟨Number.applyOp .add⟩
instance : Sub Number := ⟨Number.applyOp .sub⟩
instance : Mul Number := ⟨Number.applyOp .mul⟩
instance : Div Number := ⟨Number.applyOp .div⟩

/-- Millimeter factor of each unit, as fixed by the specification:
MM=1, CM=10, M=1000, IN=25.4, FT=304.8, YD=914.4 (and 1 for no unit). -/
def Unit.factor : Unit → ℚ
  | .MM => 1
  | .CM => 10
  | .M => 1000
  | .IN => 254/10
  | .FT => 3048/10
  | .YD => 9144/10
  | .None => 1

/-- Reference definition modelled on the specification words: conversion goes
through millimeters as the common base, `mm = magnitude * factor A`,
`result = mm / factor B`. -/
def convertViaMM (m : ℚ) (a b : Unit) : ℚ := m * a.factor / b.factor

end Gcad

namespace Gcad

/-- C3: unit conversion is the identity on the magnitude when source and
target units are equal or either is `None`, and otherwise agrees with the
via-millimeters reference definition `mm = m * factor A`, `result = mm / factor B`
with the fixed factors MM=1, CM=10, M=1000, IN=25.4, FT=304.8, YD=914.4; the
result is always tagged with the target unit. -/
theorem convert_unit_via_mm (n : Number) (u : Unit) :
    ((n.unit = u ∨ n.unit = Unit.None ∨ u = Unit.None) →
      (n.convert_unit u).value = n.value) ∧
    (n.unit ≠ u → n.unit ≠ Unit.None → u ≠ Unit.None →
      (n.convert_unit u).value = .Float (convertViaMM n.value.as_float n.unit u)) ∧
    (n.convert_unit u).unit = u := by
  obtain ⟨v, un⟩ := n
  cases un <;> cases u <;>
    refine ⟨fun h => ?_, fun h1 h2 h3 => ?_, rfl⟩ <;>
    simp_all [Number.convert_unit, convertViaMM, Unit.factor] <;> ring_nf

end Gcad

namespace Gcad

/-- Witness for the C3 theorem at the concrete conversion 3 cm → inches. -/
theorem convert_unit_via_mm_witness :
    ((Number.mk (.Integer 3) .CM).convert_unit .IN).value =
      .Float (convertViaMM ((InnerValue.Integer 3).as_float) .CM .IN) :=
  (convert_unit_via_mm ⟨.Integer 3, .CM⟩ .IN).2.1 (by decide) (by decide) (by decide)

/-- C2: combining two Numbers under `+ - * /` takes the left operand's unit
as destination unless the left operand is unitless (then the right operand's
unit), converts both operands to that unit, and applies the operation to the
magnitudes; concretely 2mm + 1cm = 12mm, 1cm + 2mm = 1.2cm, and a unitless
left operand adopts the right operand's unit (3 + 5mm = 8mm). -/
theorem number_math_reconciles_units :
    (∀ (op : MathOp) (a b : Number),
      (Number.applyOp op a b).unit =
        (if a.unit = Unit.None then b.unit else a.unit) ∧
      (Number.applyOp op a b).value =
        InnerValue.applyOp op
          (a.convert_unit (if a.unit = Unit.None then b.unit else a.unit)).value
          (b.convert_unit (if a.unit = Unit.None then b.unit else a.unit)).value) ∧
    (⟨.Integer 2, .MM⟩ + (⟨.Integer 1, .CM⟩ : Number)) = ⟨.Float 12, .MM⟩ ∧
    (⟨.Integer 1, .CM⟩ + (⟨.Integer 2, .MM⟩ : Number)) = ⟨.Float (12/10), .CM⟩ ∧
    (Number.from_int 3 + ⟨.Integer 5, .MM⟩) = ⟨.Integer 8, .MM⟩ :=
  ⟨fun _ _ _ => ⟨rfl, rfl⟩,
    by
      show Number.applyOp .add _ _ = _
      simp [Number.applyOp, convert_units_for_math, Number.convert_unit,
        InnerValue.applyOp, InnerValue.add, InnerValue.as_float]
      norm_num,
    by
      show Number.applyOp .add _ _ = _
      simp [Number.applyOp, convert_units_for_math, Number.convert_unit,
        InnerValue.applyOp, InnerValue.add, InnerValue.as_float]
      norm_num,
    by
      show Number.applyOp .add _ _ = _
      simp [Number.applyOp, convert_units_for_math, Number.convert_unit,
        InnerValue.applyOp, InnerValue.add, InnerValue.as_float,
        Number.from_int]⟩

end Gcad

namespace Gcad

/-- Script-level values, from `value.rs` (`enum ScriptValue`). -/
inductive ScriptValue where
  | Number (n : Gcad.Number)
  | String (s : String)
  | Range (start step : Gcad.Number) (num : ℕ)
  | Null
deriving DecidableEq, Repr

/-- Outcome of a Rust function whose signature returns a plain value but whose
body may `panic!`: either the returned value or a crash carrying the panic
message. A crash is an unrecoverable abort, not a value handed to the caller. -/
inductive MathResult where
  | ok (v : ScriptValue)
  | crash (msg : String)
deriving DecidableEq, Repr

/-- Source: the `math_impl!` macro of `value.rs` (identical in
`libgcad/src/value.rs`): when both operands are `Number` the operation
delegates to `Number` arithmetic; every other combination of variants
executes `panic!("Cannot do math on non-numbers")`. -/
def ScriptValue.applyMath (op : MathOp) : ScriptValue → ScriptValue → MathResult
  | .Number a, .Number b => .ok (.Number (Number.applyOp op a b))
  | _, _ => .crash "Cannot do math on non-numbers"

/-- Decide whether a `MathResult` is a crash. -/
def MathResult.isCrash : MathResult → Bool
  | .crash _ => true
  | .ok _ => false

/-- C4 counterexample: at the concrete operands `String "x"` and `Null`, the
binary `+` of `ScriptValue` does not return any error value to the caller; it
panics (an unrecoverable crash) with the message from the source, refuting the
claim that every non-Number combination yields a recoverable TypeMismatch
error value and never a crash. -/
theorem script_math_crashes_on_string_null :
    ScriptValue.applyMath .add (.String "x") .Null =
      .crash "Cannot do math on non-numbers" ∧
    (ScriptValue.applyMath .add (.String "x") .Null).isCrash = true :=
  ⟨rfl, rfl⟩

/-- C4 (amended): for every binary arithmetic operator, if both operands are
`Number` the operation delegates to `Number` arithmetic; for every other
combination of variants it panics with the fixed message — an unrecoverable
crash rather than a TypeMismatch error value returned to the caller. -/
theorem script_math_dispatch (op : MathOp) (a b : ScriptValue) :
    (∀ na nb, a = .Number na → b = .Number nb →
      ScriptValue.applyMath op a b = .ok (.Number (Number.applyOp op na nb))) ∧
    ((∀ na, a ≠ .Number na) ∨ (∀ nb, b ≠ .Number nb) →
      ScriptValue.applyMath op a b = .crash "Cannot do math on non-numbers") := by
  constructor
  · rintro na nb rfl rfl
    rfl
  · rintro (h | h) <;> cases a <;> cases b <;>
      first
        | rfl
        | exact absurd rfl (h _)

/-- Witness for the C4 amended theorem at concrete Number operands 1 and 2. -/
theorem script_math_dispatch_witness :
    ScriptValue.applyMath .add (.Number (Number.from_int 1))
        (.Number (Number.from_int 2)) =
      .ok (.Number (Number.applyOp .add (Number.from_int 1) (Number.from_int 2))) :=
  (script_math_dispatch .add _ _).1 _ _ rfl rfl

end Gcad

namespace Gcad

/-- A 3x3 matrix over ℚ modelling nalgebra's `Matrix3<f64>`. -/
structure Mat3 where
  m11 : ℚ
  m12 : ℚ
  m13 : ℚ
  m21 : ℚ
  m22 : ℚ
  m23 : ℚ
  m31 : ℚ
  m32 : ℚ
  m33 : ℚ
deriving DecidableEq, Repr

namespace Mat3

/-- Source: `Matrix3::identity()`. -/
def identity : Mat3 := ⟨1, 0, 0, 0, 1, 0, 0, 0, 1⟩

/-- Source: nalgebra's `transform_point` on a `Matrix3` acting on a `Point2`:
homogeneous transform followed by division by the homogeneous coordinate. -/
def transformPoint (m : Mat3) (p : ℚ × ℚ) : ℚ × ℚ :=
  let w := m.m31 * p.1 + m.m32 * p.2 + m.m33
  ((m.m11 * p.1 + m.m12 * p.2 + m.m13) / w, (m.m21 * p.1 + m.m22 * p.2 + m.m23) / w)

/-- Source: `Matrix3::new_nonuniform_scaling(&Vector2::new(x, y))`. -/
def new_nonuniform_scaling (x y : ℚ) : Mat3 := ⟨x, 0, 0, 0, y, 0, 0, 0, 1⟩

end Mat3

/-- A single G-code word, from `gcode.rs` (`enum GcodeWord`). -/
inductive GcodeWord where
  | G (n : ℕ)
  | M (n : ℕ)
  | F (v : ℚ)
  | I (v : ℚ)
  | J (v : ℚ)
  | S (v : ℚ)
  | X (v : ℚ)
  | Y (v : ℚ)
  | Z (v : ℚ)
deriving DecidableEq, Repr

namespace GcodeWord

/-- Source: `GcodeWord::to_char`. -/
def to_char : GcodeWord → Char
  | .G _ => 'G'
  | .M _ => 'M'
  | .F _ => 'F'
  | .I _ => 'I'
  | .J _ => 'J'
  | .S _ => 'S'
  | .X _ => 'X'
  | .Y _ => 'Y'
  | .Z _ => 'Z'

/-- Numeric payload of a value word (arbitrary 0 on command words, which the
emitter never reads). -/
def val : GcodeWord → ℚ
  | .G _ => 0
  | .M _ => 0
  | .F v | .I v | .J v | .S v | .X v | .Y v | .Z v => v

/-- True exactly on the command words `G`/`M`. -/
def isCommand : GcodeWord → Bool
  | .G _ | .M _ => true
  | _ => false

/-- True exactly on the position words `X`/`Y`/`Z`. -/
def isAxis : GcodeWord → Bool
  | .X _ | .Y _ | .Z _ => true
  | _ => false

end GcodeWord

/-- One program entry, from `gcode.rs` (`enum GCode`). -/
inductive GCode where
  | Comment (s : String)
  | RapidMove (x y z : Option ℚ)
  | LinearMove (x y z : Option ℚ) (feed : ℚ)
  | CounterClockwiseArc (x y cx cy feed : ℚ)
  | MetricUnits
  | MoveInAbsoluteCoordinates (inner : GCode)
  | AbsoluteDistanceMode
  | ProgramEnd
  | SpindleOnCW (rpm : ℚ)
  | SpindleStop
deriving DecidableEq, Repr

namespace GCode

/-- Word of an optional coordinate: the source builds move lines as a vector
of `Option` words and drops the `None` entries with `filter_map`; this helper
is that pattern expressed directly (a present coordinate contributes its word,
an absent one contributes nothing). -/
def optWord (f : ℚ → GcodeWord) : Option ℚ → List GcodeWord
  | some v => [f v]
  | none => []

theorem mem_optWord (f : ℚ → GcodeWord) (o : Option ℚ) (w : GcodeWord) :
    w ∈ optWord f o ↔ ∃ v, o = some v ∧ w = f v := by
  cases o <;> simp [optWord, eq_comm]

/-- Source: `GCode::to_words`; an arc without a known current X/Y position is
the error of the source's `bail!`. The `Comment` arm is `unreachable!()` in the
source (comments are written before `to_words` is ever called); it is modelled
as an error. -/
def to_words : GCode → Option ℚ → Option ℚ → Except String (List GcodeWord)
  | .RapidMove x y z, _, _ =>
      .ok (.G 0 :: (optWord .X x ++ optWord .Y y ++ optWord .Z z))
  | .LinearMove x y z feed, _, _ =>
      .ok (.G 1 :: (optWord .X x ++ optWord .Y y ++ optWord .Z z ++ [.F feed]))
  | .CounterClockwiseArc x y cx cy feed, current_x, current_y =>
      match current_x, current_y with
      | some cx0, some cy0 =>
          .ok [.G 3, .X x, .Y y, .I (cx - cx0), .J (cy - cy0), .F feed]
      | _, _ => .error "Cannot generate G3 arc without current position"
  | .MetricUnits, _, _ => .ok [.G 21]
  | .MoveInAbsoluteCoordinates inner, current_x, current_y => do
      let words ← inner.to_words current_x current_y
      .ok (.G 53 :: words)
  | .AbsoluteDistanceMode, _, _ => .ok [.G 90]
  | .ProgramEnd, _, _ => .ok [.M 2]
  | .SpindleOnCW rpm, _, _ => .ok [.M 3, .S rpm]
  | .SpindleStop, _, _ => .ok [.M 5]
  | .Comment _, _, _ => .error "unreachable: Comment has no words"

/-- Source: `GCode::is_empty`: a diffed move line that retained no position
word does nothing, a spindle-on line that retained no `S` word does nothing.
The `Comment` arm is `unreachable!()` in the source; its value is never used. -/
def is_empty (g : GCode) (words : List GcodeWord) : Bool :=
  let pos_present := words.any fun w => w.isAxis
  let s_present := words.any fun w =>
    match w with
    | .S _ => true
    | _ => false
  match g with
  | .Comment _ => true
  | .RapidMove _ _ _ => !pos_present
  | .LinearMove _ _ _ _ => !pos_present
  | .CounterClockwiseArc _ _ _ _ _ => !pos_present
  | .MetricUnits | .AbsoluteDistanceMode | .ProgramEnd | .SpindleStop
  | .MoveInAbsoluteCoordinates _ => false
  | .SpindleOnCW _ => !s_present

/-- True exactly on the three move primitives emitted by `rapid_move`,
`cutting_move`/`plunge` and `arc_cut`. -/
def isMove : GCode → Bool
  | .RapidMove _ _ _ | .LinearMove _ _ _ _ | .CounterClockwiseArc _ _ _ _ _ => true
  | _ => false

end GCode

/-- Live machining state, from `gcode.rs` (`struct GcodeState`): cutter and
machining parameters, the 2D transform, and the accumulated program. -/
structure GcodeState where
  stepover : ℚ
  depth_per_pass : ℚ
  feed_rate : ℚ
  plunge_rate : ℚ
  cutter_diameter : ℚ
  transformation : Mat3
  program : List GCode
deriving DecidableEq, Repr

namespace GcodeState

/-- Source: `GcodeState::new()`. -/
def new : GcodeState := ⟨0, 0, 0, 0, 0, Mat3.identity, []⟩

/-- Source: `GcodeState::write_header`. -/
def write_header (st : GcodeState) : GcodeState :=
  { st with program := st.program ++
      [.AbsoluteDistanceMode, .MetricUnits, .Comment "Move to safe Z",
        .MoveInAbsoluteCoordinates (.RapidMove none none (some (-5))),
        .SpindleStop] }

/-- Source: `GcodeState::set_rpm`. -/
def set_rpm (st : GcodeState) (rpm : ℚ) : GcodeState :=
  { st with program := st.program ++ [.SpindleOnCW rpm] }

/-- Source: `GcodeState::write_comment`. -/
def write_comment (st : GcodeState) (comment : String) : GcodeState :=
  { st with program := st.program ++ [.Comment comment] }

/-- Source: `GcodeState::cutting_move`: transform X/Y, feed-rate move. -/
def cutting_move (st : GcodeState) (x y : ℚ) (z : Option ℚ) : GcodeState :=
  let xy := st.transformation.transformPoint (x, y)
  { st with program := st.program ++
      [.LinearMove (some xy.1) (some xy.2) z st.feed_rate] }

/-- Source: `GcodeState::plunge`: Z-only move at the plunge rate. -/
def plunge (st : GcodeState) (z : ℚ) : GcodeState :=
  { st with program := st.program ++
      [.LinearMove none none (some z) st.plunge_rate] }

/-- Source: `GcodeState::rapid_move`: transform X/Y, rapid move. -/
def rapid_move (st : GcodeState) (x y : ℚ) (z : Option ℚ) : GcodeState :=
  let xy := st.transformation.transformPoint (x, y)
  { st with program := st.program ++ [.RapidMove (some xy.1) (some xy.2) z] }

/-- Source: `GcodeState::rapid_move_xy`. -/
def rapid_move_xy (st : GcodeState) (x y : ℚ) : GcodeState :=
  st.rapid_move x y none

/-- Source: `GcodeState::arc_cut`: transform target and center, CCW arc. -/
def arc_cut (st : GcodeState) (x y cx cy : ℚ) : GcodeState :=
  let xy := st.transformation.transformPoint (x, y)
  let cxy := st.transformation.transformPoint (cx, cy)
  { st with program := st.program ++
      [.CounterClockwiseArc xy.1 xy.2 cxy.1 cxy.2 st.feed_rate] }

/-- Source: `GcodeState::drill`. -/
def drill (st : GcodeState) (x y depth : ℚ) : GcodeState :=
  (((st.rapid_move_xy x y).rapid_move x y (some (1/4))).plunge (-depth)).rapid_move
    x y (some 5)

/-- Source: `GcodeState::contour_line`: `n_passes = ceil(depth/depth_per_pass)`
passes, the pass for `layer` cutting at `z = -(depth*layer/n_passes)`. -/
def contour_line (st : GcodeState) (x1 y1 x2 y2 depth : ℚ) : GcodeState :=
  let n_passes : ℤ := ⌈depth / st.depth_per_pass⌉
  (List.range n_passes.toNat).foldl
    (fun s (k : ℕ) =>
      let layer : ℤ := (k : ℤ) + 1
      let z : ℚ := -(depth * (layer : ℚ) / (n_passes : ℚ))
      (((s.rapid_move_xy x1 y1).plunge z).cutting_move x2 y2 none).rapid_move
        x2 y2 (some 5))
    st

/-- Source: `GcodeState::circle_pocket`: fails when the pocket diameter does
not exceed the cutter diameter; otherwise sweeps `n_circles` concentric arc
pairs per pass for `n_passes` passes. -/
def circle_pocket (st : GcodeState) (cx cy diameter depth : ℚ) :
    Except String GcodeState :=
  if diameter ≤ st.cutter_diameter then
    .error "Diameter must be greater than cutter diameter"
  else
    let n_circles : ℤ := ⌊diameter / st.cutter_diameter⌋
    let n_passes : ℤ := ⌈depth / st.depth_per_pass⌉
    let x_offset : ℚ := diameter / 2 - st.cutter_diameter * (n_circles : ℚ) / 2
    let st := (st.rapid_move_xy (cx + x_offset) cy).plunge (5/2)
    let st := (List.range n_passes.toNat).foldl
      (fun s (k : ℕ) =>
        let i : ℤ := (k : ℤ) + 1
        let s := s.plunge (-(depth * (i : ℚ) / (n_passes : ℚ)))
        let s := (List.range n_circles.toNat).foldl
          (fun s2 (k2 : ℕ) =>
            let j : ℤ := (k2 : ℤ) + 1
            let s2 := s2.arc_cut
              (cx - x_offset - s2.cutter_diameter * ((j : ℚ) - 1) / 2) cy cx cy
            if j = n_circles then
              s2.arc_cut
                (cx + x_offset + s2.cutter_diameter * ((j : ℚ) - 1) / 2) cy cx cy
            else
              s2.arc_cut
                (cx + x_offset + s2.cutter_diameter * (j : ℚ) / 2) cy
                (cx + s2.cutter_diameter / 4) cy)
          s
        if i < n_passes then s.cutting_move (cx + x_offset) cy none else s)
      st
    .ok (st.rapid_move
      (cx + x_offset + st.cutter_diameter * ((n_circles : ℚ) - 1) / 2) cy (some 5))

end GcodeState

end Gcad

namespace Gcad

/-- Single 1-indexed pass of `contour_line` as the specification describes it:
rapid to (x1,y1), plunge to `z = -(depth*i/n)`, cutting move to (x2,y2), rapid
Z retract to 5.0, with the active transform applied to programmed X/Y. -/
def contourPass (st : GcodeState) (x1 y1 x2 y2 depth : ℚ) (n i : ℤ) :
    List GCode :=
  let p1 := st.transformation.transformPoint (x1, y1)
  let p2 := st.transformation.transformPoint (x2, y2)
  [.RapidMove (some p1.1) (some p1.2) none,
   .LinearMove none none (some (-(depth * (i : ℚ) / (n : ℚ)))) st.plunge_rate,
   .LinearMove (some p2.1) (some p2.2) none st.feed_rate,
   .RapidMove (some p2.1) (some p2.2) (some 5)]

/-- Loop body of `contour_line`, named so the loop can be unrolled. -/
def contourBody (x1 y1 x2 y2 depth : ℚ) (n : ℤ) (s : GcodeState) (k : ℕ) :
    GcodeState :=
  let layer : ℤ := (k : ℤ) + 1
  let z : ℚ := -(depth * (layer : ℚ) / (n : ℚ))
  (((s.rapid_move_xy x1 y1).plunge z).cutting_move x2 y2 none).rapid_move
    x2 y2 (some 5)

theorem contour_loop_unroll (x1 y1 x2 y2 depth : ℚ) (n : ℤ) (m : ℕ)
    (s : GcodeState) :
    (List.range m).foldl (contourBody x1 y1 x2 y2 depth n) s =
      { s with program := s.program ++
          ((List.range m).map fun (k : ℕ) =>
            contourPass s x1 y1 x2 y2 depth n ((k : ℤ) + 1)).flatten } := by
  induction m generalizing s with
  | zero => simp
  | succ m ih =>
      rw [List.range_succ, List.foldl_append, ih]
      simp [contourBody, contourPass, GcodeState.rapid_move_xy,
        GcodeState.rapid_move, GcodeState.plunge, GcodeState.cutting_move,
        List.append_assoc]

/-- C7: with positive depth and depth_per_pass, `contour_line` performs
`n = ceil(depth/depth_per_pass)` passes (n ≥ 1), the 1-indexed pass `i`
being exactly: rapid move to (x1,y1), plunge to `z = -(depth*i/n)`, cutting
move to (x2,y2), rapid Z retract to 5.0 — re-approaching and re-cutting the
same line at increasing depth each pass. -/
theorem contour_line_passes (st : GcodeState) (x1 y1 x2 y2 depth : ℚ)
    (hd : 0 < depth) (hp : 0 < st.depth_per_pass) :
    st.contour_line x1 y1 x2 y2 depth =
      { st with program := st.program ++
          ((List.range (⌈depth / st.depth_per_pass⌉).toNat).map fun (k : ℕ) =>
            contourPass st x1 y1 x2 y2 depth ⌈depth / st.depth_per_pass⌉
              ((k : ℤ) + 1)).flatten } ∧
    1 ≤ ⌈depth / st.depth_per_pass⌉ := by
  constructor
  · show (List.range (⌈depth / st.depth_per_pass⌉).toNat).foldl
      (contourBody x1 y1 x2 y2 depth ⌈depth / st.depth_per_pass⌉) st = _
    exact contour_loop_unroll x1 y1 x2 y2 depth _ _ st
  · exact Int.ceil_pos.mpr (div_pos hd hp)

/-- Witness for C7: a two-pass contour line at depth 2 with depth_per_pass 1. -/
theorem contour_line_passes_witness :
    (GcodeState.contour_line { GcodeState.new with depth_per_pass := 1 }
        0 0 3 0 2 =
      { { GcodeState.new with depth_per_pass := 1 } with program :=
          ({ GcodeState.new with depth_per_pass := 1 } : GcodeState).program ++
          ((List.range
            (⌈(2 : ℚ) / ({ GcodeState.new with depth_per_pass := 1 } :
              GcodeState).depth_per_pass⌉).toNat).map fun (k : ℕ) =>
            contourPass { GcodeState.new with depth_per_pass := 1 }
              0 0 3 0 2
              ⌈(2 : ℚ) / ({ GcodeState.new with depth_per_pass := 1 } :
                GcodeState).depth_per_pass⌉ ((k : ℤ) + 1)).flatten }) ∧
    1 ≤ ⌈(2 : ℚ) / ({ GcodeState.new with depth_per_pass := 1 } :
      GcodeState).depth_per_pass⌉ :=
  contour_line_passes { GcodeState.new with depth_per_pass := 1 } 0 0 3 0 2
    (by norm_num) (by norm_num)

end Gcad

namespace Gcad

/-- Tracked last-written value per word letter, modelling the
`HashMap<char, f64>` named `state` in `write_program`. Only the seven value
letters are ever inserted; command letters are handled by `last_command`. -/
structure AxisState where
  x : Option ℚ
  y : Option ℚ
  z : Option ℚ
  i : Option ℚ
  j : Option ℚ
  f : Option ℚ
  s : Option ℚ
deriving DecidableEq, Repr

namespace AxisState

/-- State with no tracked values, modelling `HashMap::new()`. -/
def empty : AxisState := ⟨none, none, none, none, none, none, none⟩

/-- Source: `state.get(&c)`. -/
def get (a : AxisState) (c : Char) : Option ℚ :=
  if c = 'X' then a.x
  else if c = 'Y' then a.y
  else if c = 'Z' then a.z
  else if c = 'I' then a.i
  else if c = 'J' then a.j
  else if c = 'F' then a.f
  else if c = 'S' then a.s
  else none

/-- Source: `state.insert(c, v)`. -/
def insert (a : AxisState) (c : Char) (v : ℚ) : AxisState :=
  if c = 'X' then { a with x := some v }
  else if c = 'Y' then { a with y := some v }
  else if c = 'Z' then { a with z := some v }
  else if c = 'I' then { a with i := some v }
  else if c = 'J' then { a with j := some v }
  else if c = 'F' then { a with f := some v }
  else if c = 'S' then { a with s := some v }
  else a

/-- Source: `state.remove(&c)`. -/
def remove (a : AxisState) (c : Char) : AxisState :=
  if c = 'X' then { a with x := none }
  else if c = 'Y' then { a with y := none }
  else if c = 'Z' then { a with z := none }
  else if c = 'I' then { a with i := none }
  else if c = 'J' then { a with j := none }
  else if c = 'F' then { a with f := none }
  else if c = 'S' then { a with s := none }
  else a

end AxisState

/-- Modal state of `write_program`: the `last_command` variable and the
per-letter value map. -/
structure EmitState where
  lastCommand : Option GcodeWord
  axes : AxisState
deriving DecidableEq, Repr

/-- Initial modal state of `write_program`. -/
def EmitState.initial : EmitState := ⟨none, AxisState.empty⟩

/-- One physical output line: a comment's text or a diffed word list. -/
inductive OutLine where
  | text (s : String)
  | words (ws : List GcodeWord)
deriving DecidableEq, Repr

/-- Source: the word-scanning loop of `write_program` that builds `pieces`.
The accumulator carries the `g53` flag, the (function-level, mutable)
`last_command`, and the pieces selected so far. A `G` word of 53 sets the flag
and clears `last_command` before the comparison; command words are kept when
they differ from `last_command`; value words are always kept under `g53` and
otherwise kept when they differ from the tracked value for their letter. -/
def scanStep (axes : AxisState) :
    Bool × Option GcodeWord × List GcodeWord → GcodeWord →
      Bool × Option GcodeWord × List GcodeWord
  | (g53, lc, ps), .G n =>
      let g53' := if n = 53 then true else g53
      let lc' := if n = 53 then none else lc
      if lc' ≠ some (.G n) then (g53', lc', ps ++ [.G n]) else (g53', lc', ps)
  | (g53, lc, ps), .M n =>
      if lc ≠ some (.M n) then (g53, lc, ps ++ [.M n]) else (g53, lc, ps)
  | (g53, lc, ps), w =>
      if g53 then (g53, lc, ps ++ [w])
      else if axes.get w.to_char ≠ some w.val then (g53, lc, ps ++ [w])
      else (g53, lc, ps)

/-- Source: the state-update loop of `write_program`, run over the pieces as
written: outside `g53`, command words become `last_command` and value words
are recorded; under `g53`, `last_command` is untouched and the letters of the
written value words are deleted from the tracked state. -/
def updateStep (g53 : Bool) :
    Option GcodeWord × AxisState → GcodeWord → Option GcodeWord × AxisState
  | (lc, ax), .G n => (if g53 then lc else some (.G n), ax)
  | (lc, ax), .M n => (if g53 then lc else some (.M n), ax)
  | (lc, ax), w =>
      (lc, if g53 then ax.remove w.to_char else ax.insert w.to_char w.val)

/-- Source: one iteration of the line loop in `write_program`: comments are
written directly; other lines are turned into words (reading the tracked X/Y
for arcs), diffed into pieces, skipped when the pieces are empty or the line
`is_empty`, and otherwise written followed by the state update. -/
def processLine (st : EmitState) (line : GCode) :
    Except String (EmitState × Option OutLine) :=
  match line with
  | .Comment c => .ok (st, some (.text ("(" ++ c ++ ")")))
  | _ => do
      let ws ← line.to_words (st.axes.get 'X') (st.axes.get 'Y')
      let scanned := ws.foldl (scanStep st.axes) (false, st.lastCommand, [])
      let g53 := scanned.1
      let lc := scanned.2.1
      let pieces := scanned.2.2
      if pieces.isEmpty || line.is_empty pieces then
        .ok (⟨lc, st.axes⟩, none)
      else
        let upd := pieces.foldl (updateStep g53) (lc, st.axes)
        .ok (⟨upd.1, upd.2⟩, some (.words pieces))

/-- Source: the line loop of `write_program` over a whole program, returning
the final modal state and every written output line in order. -/
def processLines (st : EmitState) : List GCode →
    Except String (EmitState × List OutLine)
  | [] => .ok (st, [])
  | l :: ls => do
      let r ← processLine st l
      let rest ← processLines r.1 ls
      .ok (rest.1, r.2.toList ++ rest.2)

end Gcad

namespace Gcad

@[simp] theorem AxisState.get_X (a : AxisState) : a.get 'X' = a.x := rfl

@[simp] theorem AxisState.get_Y (a : AxisState) : a.get 'Y' = a.y := rfl

@[simp] theorem AxisState.get_Z (a : AxisState) : a.get 'Z' = a.z := rfl

@[simp] theorem AxisState.get_I (a : AxisState) : a.get 'I' = a.i := rfl

@[simp] theorem AxisState.get_J (a : AxisState) : a.get 'J' = a.j := rfl

@[simp] theorem AxisState.get_F (a : AxisState) : a.get 'F' = a.f := rfl

@[simp] theorem AxisState.get_S (a : AxisState) : a.get 'S' = a.s := rfl

@[simp] theorem AxisState.get_G (a : AxisState) : a.get 'G' = none := rfl

@[simp] theorem AxisState.get_M (a : AxisState) : a.get 'M' = none := rfl

@[simp] theorem AxisState.insert_X (a : AxisState) (v : ℚ) :
    a.insert 'X' v = { a with x := some v } := rfl

@[simp] theorem AxisState.insert_Y (a : AxisState) (v : ℚ) :
    a.insert 'Y' v = { a with y := some v } := rfl

@[simp] theorem AxisState.insert_Z (a : AxisState) (v : ℚ) :
    a.insert 'Z' v = { a with z := some v } := rfl

@[simp] theorem AxisState.insert_I (a : AxisState) (v : ℚ) :
    a.insert 'I' v = { a with i := some v } := rfl

@[simp] theorem AxisState.insert_J (a : AxisState) (v : ℚ) :
    a.insert 'J' v = { a with j := some v } := rfl

@[simp] theorem AxisState.insert_F (a : AxisState) (v : ℚ) :
    a.insert 'F' v = { a with f := some v } := rfl

@[simp] theorem AxisState.insert_S (a : AxisState) (v : ℚ) :
    a.insert 'S' v = { a with s := some v } := rfl

@[simp] theorem AxisState.remove_X (a : AxisState) :
    a.remove 'X' = { a with x := none } := rfl

@[simp] theorem AxisState.remove_Y (a : AxisState) :
    a.remove 'Y' = { a with y := none } := rfl

@[simp] theorem AxisState.remove_Z (a : AxisState) :
    a.remove 'Z' = { a with z := none } := rfl

@[simp] theorem AxisState.remove_I (a : AxisState) :
    a.remove 'I' = { a with i := none } := rfl

@[simp] theorem AxisState.remove_J (a : AxisState) :
    a.remove 'J' = { a with j := none } := rfl

@[simp] theorem AxisState.remove_F (a : AxisState) :
    a.remove 'F' = { a with f := none } := rfl

@[simp] theorem AxisState.remove_S (a : AxisState) :
    a.remove 'S' = { a with s := none } := rfl

@[simp] theorem AxisState.remove_G (a : AxisState) : a.remove 'G' = a := rfl

@[simp] theorem AxisState.remove_M (a : AxisState) : a.remove 'M' = a := rfl

/-- The retention test applied by the scanning loop of `write_program` to a
word of a line containing no `G53`: command words are kept when they differ
from `last_command`, value words when they differ from the tracked value. -/
def keepWord (lc : Option GcodeWord) (axes : AxisState) : GcodeWord → Bool
  | .G n => decide (lc ≠ some (.G n))
  | .M n => decide (lc ≠ some (.M n))
  | w => decide (axes.get w.to_char ≠ some w.val)

theorem scanStep_no_g53 (axes : AxisState) (lc : Option GcodeWord)
    (ps : List GcodeWord) (w : GcodeWord) (hw : w ≠ .G 53) :
    scanStep axes (false, lc, ps) w =
      (false, lc, ps ++ if keepWord lc axes w then [w] else []) := by
  cases w with
  | G n =>
      have hn : n ≠ 53 := fun h => hw (by rw [h])
      by_cases hk : lc = some (.G n) <;>
        simp [scanStep, keepWord, hn, hk]
  | M n =>
      by_cases hk : lc = some (.M n) <;>
        simp [scanStep, keepWord, hk]
  | F v =>
      by_cases hk : axes.f = some v <;>
        simp [scanStep, keepWord, GcodeWord.to_char, GcodeWord.val, hk]
  | I v =>
      by_cases hk : axes.i = some v <;>
        simp [scanStep, keepWord, GcodeWord.to_char, GcodeWord.val, hk]
  | J v =>
      by_cases hk : axes.j = some v <;>
        simp [scanStep, keepWord, GcodeWord.to_char, GcodeWord.val, hk]
  | S v =>
      by_cases hk : axes.s = some v <;>
        simp [scanStep, keepWord, GcodeWord.to_char, GcodeWord.val, hk]
  | X v =>
      by_cases hk : axes.x = some v <;>
        simp [scanStep, keepWord, GcodeWord.to_char, GcodeWord.val, hk]
  | Y v =>
      by_cases hk : axes.y = some v <;>
        simp [scanStep, keepWord, GcodeWord.to_char, GcodeWord.val, hk]
  | Z v =>
      by_cases hk : axes.z = some v <;>
        simp [scanStep, keepWord, GcodeWord.to_char, GcodeWord.val, hk]

theorem scan_no_g53 (axes : AxisState) (lc : Option GcodeWord)
    (ws : List GcodeWord) (ps : List GcodeWord)
    (h53 : ∀ w ∈ ws, w ≠ .G 53) :
    ws.foldl (scanStep axes) (false, lc, ps) =
      (false, lc, ps ++ ws.filter (keepWord lc axes)) := by
  induction ws generalizing ps with
  | nil => simp
  | cons w ws ih =>
      have hw : w ≠ .G 53 := h53 w (by simp)
      have hrest : ∀ w2 ∈ ws, w2 ≠ .G 53 := fun w2 h2 => h53 w2 (by simp [h2])
      rw [List.foldl_cons, scanStep_no_g53 axes lc ps w hw, ih _ hrest,
        List.filter_cons]
      by_cases h : keepWord lc axes w <;> simp [h]

theorem scan_after_g53 (axes : AxisState) (ws ps : List GcodeWord) :
    ws.foldl (scanStep axes) (true, none, ps) = (true, none, ps ++ ws) := by
  induction ws generalizing ps with
  | nil => simp
  | cons w ws ih =>
      cases w with
      | G n =>
          by_cases hn : n = 53 <;> simp [scanStep, hn, ih]
      | M n => simp [scanStep, ih]
      | F v => simp [scanStep, ih]
      | I v => simp [scanStep, ih]
      | J v => simp [scanStep, ih]
      | S v => simp [scanStep, ih]
      | X v => simp [scanStep, ih]
      | Y v => simp [scanStep, ih]
      | Z v => simp [scanStep, ih]

end Gcad

namespace Gcad

theorem update_g53_lc (ps : List GcodeWord) (lc : Option GcodeWord)
    (ax : AxisState) : (ps.foldl (updateStep true) (lc, ax)).1 = lc := by
  induction ps generalizing ax with
  | nil => rfl
  | cons w ps ih => cases w <;> simp [updateStep, ih]

theorem step_g53_none (lc : Option GcodeWord) (ax : AxisState)
    (w0 w : GcodeWord) (h : ax.get w.to_char = none) :
    ((updateStep true (lc, ax) w0).2).get w.to_char = none := by
  cases w0 <;> cases w <;> simp_all [updateStep, GcodeWord.to_char]

theorem update_g53_none (ps : List GcodeWord) (lc : Option GcodeWord)
    (ax : AxisState) (w : GcodeWord) (h : ax.get w.to_char = none) :
    ((ps.foldl (updateStep true) (lc, ax)).2).get w.to_char = none := by
  induction ps generalizing ax lc with
  | nil => exact h
  | cons w0 ps ih =>
      rw [List.foldl_cons]
      have hstep := step_g53_none lc ax w0 w h
      calc ((List.foldl (updateStep true) (updateStep true (lc, ax) w0) ps).2).get
            w.to_char
          = ((List.foldl (updateStep true)
              ((updateStep true (lc, ax) w0).1, (updateStep true (lc, ax) w0).2)
              ps).2).get w.to_char := by rw [Prod.mk.eta]
        _ = none := ih _ _ hstep

theorem step_g53_self (lc : Option GcodeWord) (ax : AxisState) (w : GcodeWord)
    (hv : w.isCommand = false) :
    ((updateStep true (lc, ax) w).2).get w.to_char = none := by
  cases w <;> simp_all [updateStep, GcodeWord.to_char, GcodeWord.isCommand]

theorem update_g53_removes (ps : List GcodeWord) (lc : Option GcodeWord)
    (ax : AxisState) :
    ∀ w ∈ ps, w.isCommand = false →
      ((ps.foldl (updateStep true) (lc, ax)).2).get w.to_char = none := by
  induction ps generalizing ax lc with
  | nil => intro w hmem ; simp at hmem
  | cons w0 ps ih =>
      intro w hmem hcmd
      rw [List.foldl_cons]
      rcases List.mem_cons.mp hmem with hw | hw
      · subst hw
        calc ((List.foldl (updateStep true) (updateStep true (lc, ax) w) ps).2).get
              w.to_char
            = ((List.foldl (updateStep true)
                ((updateStep true (lc, ax) w).1, (updateStep true (lc, ax) w).2)
                ps).2).get w.to_char := by rw [Prod.mk.eta]
          _ = none := update_g53_none ps _ _ w (step_g53_self lc ax w hcmd)
      · calc ((List.foldl (updateStep true) (updateStep true (lc, ax) w0) ps).2).get
              w.to_char
            = ((List.foldl (updateStep true)
                ((updateStep true (lc, ax) w0).1, (updateStep true (lc, ax) w0).2)
                ps).2).get w.to_char := by rw [Prod.mk.eta]
          _ = none := ih _ _ w hw hcmd

end Gcad

namespace Gcad

theorem move_is_empty (line : GCode) (hmove : line.isMove = true)
    (ps : List GcodeWord) :
    line.is_empty ps = !(ps.any fun w => w.isAxis) := by
  cases line <;> first
    | rfl
    | simp [GCode.isMove] at hmove

theorem move_words_no_g53 (line : GCode) (cx cy : Option ℚ)
    (ws : List GcodeWord) (hmove : line.isMove = true)
    (hw : line.to_words cx cy = .ok ws) :
    GcodeWord.G 53 ∉ ws := by
  cases line with
  | RapidMove x y z =>
      simp only [GCode.to_words, Except.ok.injEq] at hw
      subst hw
      cases x <;> cases y <;> cases z <;> simp [GCode.optWord]
  | LinearMove x y z feed =>
      simp only [GCode.to_words, Except.ok.injEq] at hw
      subst hw
      cases x <;> cases y <;> cases z <;> simp [GCode.optWord]
  | CounterClockwiseArc x y acx acy feed =>
      cases cx with
      | none => simp [GCode.to_words] at hw
      | some cx0 =>
          cases cy with
          | none => simp [GCode.to_words] at hw
          | some cy0 =>
              simp only [GCode.to_words, Except.ok.injEq] at hw
              subst hw
              simp
  | _ => simp [GCode.isMove] at hmove

end Gcad

namespace Gcad

theorem processLine_move (s : EmitState) (line : GCode) (ws : List GcodeWord)
    (hmove : line.isMove = true)
    (hw : line.to_words (s.axes.get 'X') (s.axes.get 'Y') = .ok ws) :
    processLine s line =
      if (ws.filter (keepWord s.lastCommand s.axes)).isEmpty
          || line.is_empty (ws.filter (keepWord s.lastCommand s.axes)) then
        .ok (⟨s.lastCommand, s.axes⟩, none)
      else
        .ok (⟨((ws.filter (keepWord s.lastCommand s.axes)).foldl (updateStep false)
                (s.lastCommand, s.axes)).1,
              ((ws.filter (keepWord s.lastCommand s.axes)).foldl (updateStep false)
                (s.lastCommand, s.axes)).2⟩,
          some (.words (ws.filter (keepWord s.lastCommand s.axes)))) := by
  have h53 := move_words_no_g53 line _ _ ws hmove hw
  have h53m : ∀ w ∈ ws, w ≠ .G 53 := fun w hwm he => h53 (he ▸ hwm)
  have hscan := scan_no_g53 s.axes s.lastCommand ws [] h53m
  cases line <;> try simp [GCode.isMove] at hmove
  all_goals
    simp only [processLine, hw, Except.bind, bind]
    rw [hscan]
    simp only [List.nil_append]

theorem c1_suppression (s : EmitState) (line : GCode) (ws : List GcodeWord)
    (hmove : line.isMove = true)
    (hw : line.to_words (s.axes.get 'X') (s.axes.get 'Y') = .ok ws)
    (hmatch : ∀ w ∈ ws, w.isAxis = true → s.axes.get w.to_char = some w.val) :
    processLine s line = .ok (⟨s.lastCommand, s.axes⟩, none) := by
  rw [processLine_move s line ws hmove hw]
  have hnoaxis : ∀ w ∈ ws.filter (keepWord s.lastCommand s.axes),
      w.isAxis = false := by
    intro w hwf
    rcases List.mem_filter.mp hwf with ⟨hwm, hkeep⟩
    cases w <;> simp [GcodeWord.isAxis]
    all_goals
      have hv := hmatch _ hwm (by simp [GcodeWord.isAxis])
      simp only [GcodeWord.to_char, GcodeWord.val] at hv
      simp [keepWord, GcodeWord.to_char, GcodeWord.val, hv] at hkeep
  have hpos : (ws.filter (keepWord s.lastCommand s.axes)).any
      (fun w => w.isAxis) = false := by
    rw [List.any_eq_false]
    intro w hwm
    simp [hnoaxis w hwm]
  rw [move_is_empty line hmove, hpos]
  simp

theorem c1_only_if (s : EmitState) (line : GCode) (ws : List GcodeWord)
    (s1 : EmitState) (ps : List GcodeWord)
    (hmove : line.isMove = true)
    (hw : line.to_words (s.axes.get 'X') (s.axes.get 'Y') = .ok ws)
    (h : processLine s line = .ok (s1, some (.words ps))) :
    ∀ w ∈ ps,
      (w.isCommand = true → s.lastCommand ≠ some w) ∧
      (w.isCommand = false → s.axes.get w.to_char ≠ some w.val) := by
  rw [processLine_move s line ws hmove hw] at h
  by_cases hc : (ws.filter (keepWord s.lastCommand s.axes)).isEmpty
      || line.is_empty (ws.filter (keepWord s.lastCommand s.axes))
  · rw [if_pos hc] at h
    simp at h
  · rw [if_neg hc] at h
    simp only [Except.ok.injEq, Prod.mk.injEq, Option.some.injEq,
      OutLine.words.injEq] at h
    obtain ⟨-, hps⟩ := h
    subst hps
    intro w hwm
    rcases List.mem_filter.mp hwm with ⟨-, hkeep⟩
    constructor
    · intro hcmd
      cases w <;> simp [GcodeWord.isCommand] at hcmd <;>
        simpa [keepWord] using hkeep
    · intro hcmd
      cases w <;> simp [GcodeWord.isCommand] at hcmd <;>
        simpa [keepWord, GcodeWord.to_char, GcodeWord.val] using hkeep

end Gcad

namespace Gcad

theorem c1_rapid_pair (s : EmitState) (x y z : ℚ) (s1 : EmitState)
    (out : OutLine)
    (h : processLine s (.RapidMove (some x) (some y) (some z)) =
      .ok (s1, some out)) :
    processLine s1 (.RapidMove (some x) (some y) (some z)) = .ok (s1, none) := by
  have hw2 : ∀ t : EmitState,
      (GCode.RapidMove (some x) (some y) (some z)).to_words
        (t.axes.get 'X') (t.axes.get 'Y') =
          .ok [.G 0, .X x, .Y y, .Z z] := by
    intro t
    simp [GCode.to_words, GCode.optWord]
  rw [processLine_move s (.RapidMove (some x) (some y) (some z))
    [.G 0, .X x, .Y y, .Z z] rfl (hw2 s)] at h
  by_cases hG : s.lastCommand = some (.G 0) <;>
    by_cases hX : s.axes.x = some x <;>
      by_cases hY : s.axes.y = some y <;>
        by_cases hZ : s.axes.z = some z <;>
          ( simp [List.filter_cons, keepWord, GcodeWord.to_char,
              GcodeWord.val, GCode.is_empty, GcodeWord.isAxis, updateStep,
              hG, hX, hY, hZ] at h ) <;>
          ( obtain ⟨hs1, -⟩ := h
            subst hs1
            rw [processLine_move _ (.RapidMove (some x) (some y) (some z))
              [.G 0, .X x, .Y y, .Z z] rfl (hw2 _)]
            simp [keepWord, GcodeWord.to_char, GcodeWord.val, hG, hX, hY, hZ] )

end Gcad

namespace Gcad

/-- C1: in the modal emitter, (1) a move line whose words match the tracked
value on every axis word it carries is written as no output line at all and
leaves the modal state unchanged; (2) an emitted move line contains a command
word only if it differs from the last emitted command, and each value word
(axis, feed, arc offset, spindle) only if it differs from the tracked value
for that letter; (3) consequently of two consecutive rapid moves to the same
(x,y,z) only the first emits a line and the second emits nothing. -/
theorem modal_diff_emission :
    (∀ (s : EmitState) (line : GCode) (ws : List GcodeWord),
      line.isMove = true →
      line.to_words (s.axes.get 'X') (s.axes.get 'Y') = .ok ws →
      (∀ w ∈ ws, w.isAxis = true → s.axes.get w.to_char = some w.val) →
      processLine s line = .ok (⟨s.lastCommand, s.axes⟩, none)) ∧
    (∀ (s : EmitState) (line : GCode) (ws : List GcodeWord) (s1 : EmitState)
        (ps : List GcodeWord),
      line.isMove = true →
      line.to_words (s.axes.get 'X') (s.axes.get 'Y') = .ok ws →
      processLine s line = .ok (s1, some (.words ps)) →
      ∀ w ∈ ps,
        (w.isCommand = true → s.lastCommand ≠ some w) ∧
        (w.isCommand = false → s.axes.get w.to_char ≠ some w.val)) ∧
    (∀ (s : EmitState) (x y z : ℚ) (s1 : EmitState) (out : OutLine),
      processLine s (.RapidMove (some x) (some y) (some z)) =
        .ok (s1, some out) →
      processLine s1 (.RapidMove (some x) (some y) (some z)) = .ok (s1, none)) :=
  ⟨fun s line ws hmove hw hmatch => c1_suppression s line ws hmove hw hmatch,
   fun s line ws s1 ps hmove hw h => c1_only_if s line ws s1 ps hmove hw h,
   fun s x y z s1 out h => c1_rapid_pair s x y z s1 out h⟩

/-- Witness for C1 part (1): a rapid move to the already-tracked position
(1,2,3) emits nothing and leaves the state unchanged. -/
theorem modal_diff_emission_witness :
    processLine
        ⟨some (.G 0), ⟨some 1, some 2, some 3, none, none, none, none⟩⟩
        (.RapidMove (some 1) (some 2) (some 3)) =
      .ok (⟨some (.G 0), ⟨some 1, some 2, some 3, none, none, none, none⟩⟩,
        none) :=
  modal_diff_emission.1
    ⟨some (.G 0), ⟨some 1, some 2, some 3, none, none, none, none⟩⟩
    (.RapidMove (some 1) (some 2) (some 3))
    [.G 0, .X 1, .Y 2, .Z 3] rfl rfl (by decide)

end Gcad

namespace Gcad

theorem processLine_g53 (s : EmitState) (inner : GCode) (wsi : List GcodeWord)
    (hwi : inner.to_words (s.axes.get 'X') (s.axes.get 'Y') = .ok wsi) :
    processLine s (.MoveInAbsoluteCoordinates inner) =
      .ok (⟨((GcodeWord.G 53 :: wsi).foldl (updateStep true) (none, s.axes)).1,
            ((GcodeWord.G 53 :: wsi).foldl (updateStep true) (none, s.axes)).2⟩,
        some (.words (.G 53 :: wsi))) := by
  have hscan : (GcodeWord.G 53 :: wsi).foldl (scanStep s.axes)
      (false, s.lastCommand, []) = (true, none, .G 53 :: wsi) := by
    rw [List.foldl_cons]
    have h1 : scanStep s.axes (false, s.lastCommand, []) (.G 53) =
        (true, none, [.G 53]) := by
      simp [scanStep]
    rw [h1, scan_after_g53]
    simp
  simp only [processLine, GCode.to_words, hwi, Except.bind, bind]
  rw [hscan]
  simp [GCode.is_empty]

/-- C10: (1) processing a machine-coordinate (G53) line leaves `last_command`
cleared (the line's command word is not recorded) and deletes the tracked
value of every value word the line writes; (2) consequently a move processed
with `last_command` cleared always re-emits its command word, and re-emits
every axis word whose tracked value is absent — even when the value equals
what the G53 line wrote. -/
theorem g53_forces_reemission :
    (∀ (s : EmitState) (inner : GCode) (s1 : EmitState) (ps : List GcodeWord),
      processLine s (.MoveInAbsoluteCoordinates inner) =
        .ok (s1, some (.words ps)) →
      s1.lastCommand = none ∧
      ∀ w ∈ ps, w.isCommand = false → s1.axes.get w.to_char = none) ∧
    (∀ (s : EmitState) (line : GCode) (ws : List GcodeWord) (s1 : EmitState)
        (ps : List GcodeWord),
      s.lastCommand = none → line.isMove = true →
      line.to_words (s.axes.get 'X') (s.axes.get 'Y') = .ok ws →
      processLine s line = .ok (s1, some (.words ps)) →
      (∀ n, GcodeWord.G n ∈ ws → GcodeWord.G n ∈ ps) ∧
      (∀ w ∈ ws, w.isAxis = true → s.axes.get w.to_char = none → w ∈ ps)) := by
  constructor
  · intro s inner s1 ps h
    cases hww : inner.to_words (s.axes.get 'X') (s.axes.get 'Y') with
    | error e =>
        have hww2 : inner.to_words s.axes.x s.axes.y = .error e := by
          simpa using hww
        simp [processLine, GCode.to_words, hww2, Except.bind, bind] at h
    | ok wsi =>
        rw [processLine_g53 s inner wsi hww] at h
        simp only [Except.ok.injEq, Prod.mk.injEq, Option.some.injEq,
          OutLine.words.injEq] at h
        obtain ⟨hs1, hps⟩ := h
        subst hps
        constructor
        · rw [← hs1]
          exact update_g53_lc _ _ _
        · intro w hwm hcmd
          rw [← hs1]
          exact update_g53_removes _ _ _ w hwm hcmd
  · intro s line ws s1 ps hlc hmove hw h
    rw [processLine_move s line ws hmove hw] at h
    by_cases hc : (ws.filter (keepWord s.lastCommand s.axes)).isEmpty
        || line.is_empty (ws.filter (keepWord s.lastCommand s.axes))
    · rw [if_pos hc] at h
      simp at h
    · rw [if_neg hc] at h
      simp only [Except.ok.injEq, Prod.mk.injEq, Option.some.injEq,
        OutLine.words.injEq] at h
      obtain ⟨-, hps⟩ := h
      subst hps
      constructor
      · intro n hm
        exact List.mem_filter.mpr ⟨hm, by simp [keepWord, hlc]⟩
      · intro w hm hax hnone
        refine List.mem_filter.mpr ⟨hm, ?_⟩
        cases w <;> simp [GcodeWord.isAxis] at hax <;>
          simp_all [keepWord, GcodeWord.to_char, GcodeWord.val]

end Gcad

namespace Gcad

/-- Witness for C10 part (1): the header's G53 rapid retract (Z −5) processed
from the initial state leaves `last_command` cleared and the Z track deleted. -/
theorem g53_forces_reemission_witness :
    (EmitState.mk none AxisState.empty).lastCommand = none ∧
    ∀ w ∈ [GcodeWord.G 53, GcodeWord.G 0, GcodeWord.Z (-5)],
      w.isCommand = false →
      (EmitState.mk none AxisState.empty).axes.get w.to_char = none :=
  g53_forces_reemission.1 EmitState.initial
    (.RapidMove none none (some (-5)))
    ⟨none, AxisState.empty⟩ [.G 53, .G 0, .Z (-5)] (by rfl)

end Gcad

namespace Gcad

/-- A machining preset, from `engine/mod.rs` (`struct Material`). -/
structure Material where
  stepover : ℚ
  depth_per_pass : ℚ
  feed_rate : ℚ
  plunge_rate : ℚ
  rpm : ℚ
deriving DecidableEq, Repr

/-- The engine state relevant to the builtins, from `engine/mod.rs`
(`struct ScriptEngine`): the global variable environment, the materials
registry (a map modelled as an association list) and the G-code state. -/
structure ScriptEngine where
  global_vars : List (String × ScriptValue)
  materials : List (String × Material)
  gcode : GcodeState
deriving DecidableEq, Repr

/-- Source: `builtin_material` of `engine/builtins.rs`: look the name up in
the registry; on success overwrite stepover, depth_per_pass, feed_rate and
plunge_rate and re-issue the spindle-speed command with the preset's rpm;
an unknown name fails. -/
def builtin_material (eng : ScriptEngine) (name : String) :
    Except String (ScriptEngine × ScriptValue) :=
  match eng.materials.lookup name with
  | some material =>
      let g := { eng.gcode with
        stepover := material.stepover,
        depth_per_pass := material.depth_per_pass,
        feed_rate := material.feed_rate,
        plunge_rate := material.plunge_rate }
      .ok ({ eng with gcode := g.set_rpm material.rpm }, .Null)
  | none => .error ("Unknown material: " ++ name)

/-- C9: applying a registered material updates exactly stepover,
depth_per_pass, feed_rate and plunge_rate, appends the spindle-speed command
with the preset's rpm, and leaves cutter_diameter, the coordinate transform,
the registry and the variable environment unchanged. -/
theorem material_updates_exactly (eng : ScriptEngine) (name : String)
    (m : Material) (hm : eng.materials.lookup name = some m) :
    builtin_material eng name =
      .ok ({ eng with gcode :=
        { eng.gcode with
            stepover := m.stepover,
            depth_per_pass := m.depth_per_pass,
            feed_rate := m.feed_rate,
            plunge_rate := m.plunge_rate,
            program := eng.gcode.program ++ [.SpindleOnCW m.rpm] } }, .Null) := by
  simp [builtin_material, hm, GcodeState.set_rpm]

/-- Witness for C9 at a concrete engine with one registered material. -/
theorem material_updates_exactly_witness :
    builtin_material
        ⟨[], [("alu", ⟨1, 2, 300, 100, 10000⟩)], GcodeState.new⟩ "alu" =
      .ok (⟨[], [("alu", ⟨1, 2, 300, 100, 10000⟩)],
        { GcodeState.new with
            stepover := 1, depth_per_pass := 2, feed_rate := 300,
            plunge_rate := 100,
            program := GcodeState.new.program ++ [.SpindleOnCW 10000] }⟩,
        .Null) :=
  material_updates_exactly
    ⟨[], [("alu", ⟨1, 2, 300, 100, 10000⟩)], GcodeState.new⟩ "alu"
    ⟨1, 2, 300, 100, 10000⟩ rfl

end Gcad

namespace Gcad

/-- Source: `builtin_circle_pocket` of `engine/builtins.rs`: use `diameter`
when present, otherwise `radius * 2.0`, otherwise fail; require units on cx,
cy, the resolved diameter and depth; convert to millimeters and delegate to
`GcodeState::circle_pocket` (whose guard rejects a diameter not exceeding the
cutter diameter). -/
def builtin_circle_pocket (eng : ScriptEngine) (cx cy : Number)
    (diameter radius : Option Number) (depth : Number) :
    Except String (ScriptEngine × ScriptValue) := do
  let diameter ←
    match diameter with
    | some d => Except.ok d
    | none =>
        match radius with
        | some r => Except.ok (r * Number.from_float 2)
        | none => Except.error "Either diameter or radius must be specified"
  if cx.unit = Unit.None ∨ cy.unit = Unit.None ∨ diameter.unit = Unit.None ∨
      depth.unit = Unit.None then
    Except.error "All arguments must have a unit"
  else do
    let g ← eng.gcode.circle_pocket ((cx.convert_unit .MM).value.as_float)
      ((cy.convert_unit .MM).value.as_float)
      ((diameter.convert_unit .MM).value.as_float)
      ((depth.convert_unit .MM).value.as_float)
    Except.ok ({ eng with gcode := g }, .Null)

theorem circle_pocket_ok_of_gt (st : GcodeState) (cx cy diameter depth : ℚ)
    (h : ¬ diameter ≤ st.cutter_diameter) :
    ∃ g, st.circle_pocket cx cy diameter depth = .ok g := by
  unfold GcodeState.circle_pocket
  rw [if_neg h]
  exact ⟨_, rfl⟩

/-- C6 (amended): circle_pocket fails with the argument error exactly when
neither diameter nor radius resolves; when diameter is present it is used and
radius is ignored (even when both are given); when only radius is present,
radius × 2 is used as the diameter; with units present the call fails when the
resolved diameter (in mm) does not exceed the cutter diameter (equality
fails), and succeeds when it exceeds it. -/
theorem circle_pocket_guard :
    (∀ (eng : ScriptEngine) (cx cy depth : Number),
      builtin_circle_pocket eng cx cy none none depth =
        .error "Either diameter or radius must be specified") ∧
    (∀ (eng : ScriptEngine) (cx cy r depth : Number),
      builtin_circle_pocket eng cx cy none (some r) depth =
        builtin_circle_pocket eng cx cy (some (r * Number.from_float 2)) none
          depth) ∧
    (∀ (eng : ScriptEngine) (cx cy d depth : Number) (radius : Option Number),
      builtin_circle_pocket eng cx cy (some d) radius depth =
        builtin_circle_pocket eng cx cy (some d) none depth) ∧
    (∀ (eng : ScriptEngine) (cx cy d depth : Number) (radius : Option Number),
      cx.unit ≠ Unit.None → cy.unit ≠ Unit.None → d.unit ≠ Unit.None →
      depth.unit ≠ Unit.None →
      (d.convert_unit .MM).value.as_float ≤ eng.gcode.cutter_diameter →
      builtin_circle_pocket eng cx cy (some d) radius depth =
        .error "Diameter must be greater than cutter diameter") ∧
    (∀ (eng : ScriptEngine) (cx cy d depth : Number) (radius : Option Number),
      cx.unit ≠ Unit.None → cy.unit ≠ Unit.None → d.unit ≠ Unit.None →
      depth.unit ≠ Unit.None →
      ¬ (d.convert_unit .MM).value.as_float ≤ eng.gcode.cutter_diameter →
      ∃ res, builtin_circle_pocket eng cx cy (some d) radius depth =
        .ok res) := by
  refine ⟨fun eng cx cy depth => rfl, fun eng cx cy r depth => rfl,
    fun eng cx cy d depth radius => rfl, ?_, ?_⟩
  · intro eng cx cy d depth radius h1 h2 h3 h4 hle
    simp [builtin_circle_pocket, h1, h2, h3, h4, GcodeState.circle_pocket,
      hle, Except.bind, bind]
  · intro eng cx cy d depth radius h1 h2 h3 h4 hgt
    obtain ⟨g, hg⟩ := circle_pocket_ok_of_gt eng.gcode
      ((cx.convert_unit .MM).value.as_float)
      ((cy.convert_unit .MM).value.as_float)
      ((d.convert_unit .MM).value.as_float)
      ((depth.convert_unit .MM).value.as_float) hgt
    refine ⟨({ eng with gcode := g }, .Null), ?_⟩
    simp [builtin_circle_pocket, h1, h2, h3, h4, hg, Except.bind, bind]

/-- Witness for C6 (amended), reproducing the spec's own test: with the
cutter diameter set to 5 mm, a pocket of diameter exactly 5 mm fails (equality
fails). -/
theorem circle_pocket_guard_witness :
    builtin_circle_pocket
        ⟨[], [], { GcodeState.new with cutter_diameter := 5, depth_per_pass := 1 }⟩
        ⟨.Integer 0, .MM⟩ ⟨.Integer 0, .MM⟩ (some ⟨.Integer 5, .MM⟩) none
        ⟨.Integer 1, .MM⟩ =
      .error "Diameter must be greater than cutter diameter" :=
  circle_pocket_guard.2.2.2.1
    ⟨[], [], { GcodeState.new with cutter_diameter := 5, depth_per_pass := 1 }⟩
    ⟨.Integer 0, .MM⟩ ⟨.Integer 0, .MM⟩ ⟨.Integer 5, .MM⟩ ⟨.Integer 1, .MM⟩
    none (by decide) (by decide) (by decide) (by decide)
    (by norm_num [Number.convert_unit, InnerValue.as_float, GcodeState.new])

/-- C6 counterexample: a call supplying BOTH diameter (10 mm) and radius
(2 mm) succeeds — the code does not require exactly one of the two to
resolve; it fails only when neither is given (diameter simply wins). -/
theorem circle_pocket_both_present_succeeds :
    (builtin_circle_pocket
        ⟨[], [], { GcodeState.new with cutter_diameter := 5, depth_per_pass := 1 }⟩
        ⟨.Integer 0, .MM⟩ ⟨.Integer 0, .MM⟩
        (some ⟨.Integer 10, .MM⟩) (some ⟨.Integer 2, .MM⟩)
        ⟨.Integer 1, .MM⟩).isOk = true := by
  have hgt : ¬ ((Number.mk (.Integer 10) .MM).convert_unit .MM).value.as_float ≤
      ({ GcodeState.new with cutter_diameter := 5, depth_per_pass := 1 } : GcodeState).cutter_diameter := by
    norm_num [Number.convert_unit, InnerValue.as_float, GcodeState.new]
  obtain ⟨g, hg⟩ := circle_pocket_ok_of_gt
    { GcodeState.new with cutter_diameter := 5, depth_per_pass := 1 }
    (((Number.mk (.Integer 0) .MM).convert_unit .MM).value.as_float)
    (((Number.mk (.Integer 0) .MM).convert_unit .MM).value.as_float)
    (((Number.mk (.Integer 10) .MM).convert_unit .MM).value.as_float)
    (((Number.mk (.Integer 1) .MM).convert_unit .MM).value.as_float) hgt
  simp [builtin_circle_pocket, hg, Except.bind, bind, Except.isOk,
    Except.toBool]

end Gcad

namespace Gcad

/-- Source: `builtin_linspace` of `engine/builtins.rs`: num must be unitless;
start and stop must either both carry a unit or neither; stop is converted to
start's unit; num must be an Integer (a Float fails); the step is
`(stop - start) / (num - 1)`; the conversion of num to `usize` fails exactly
when num is negative (zero is accepted). -/
def builtin_linspace (start stop num : Number) : Except String ScriptValue :=
  if num.unit ≠ Unit.None then
    .error "num must not have a unit"
  else if start.unit = Unit.None ∧ stop.unit ≠ Unit.None then
    .error "start must have a unit if stop has a unit"
  else if start.unit ≠ Unit.None ∧ stop.unit = Unit.None then
    .error "stop must have a unit if start has a unit"
  else
    let stop := stop.convert_unit start.unit
    match num.value with
    | .Float _ => .error "num argument must be an integer"
    | .Integer n =>
        let step := (stop - start) / Number.from_int (n - 1)
        if n < 0 then .error "num argument must be a positive integer"
        else .ok (.Range start step n.toNat)

/-- Source: the for-loop of `engine/mod.rs`, which materializes iteration `i`
of a Range as `start + step * (i as i64)`. -/
def rangeValues (start step : Number) (num : ℕ) : List Number :=
  (List.range num).map fun i => start + step * Number.from_int (i : ℤ)

end Gcad

namespace Gcad

theorem number_add_def (a b : Number) : a + b = Number.applyOp .add a b := rfl

theorem number_sub_def (a b : Number) : a - b = Number.applyOp .sub a b := rfl

theorem number_mul_def (a b : Number) : a * b = Number.applyOp .mul a b := rfl

theorem number_div_def (a b : Number) : a / b = Number.applyOp .div a b := rfl

/-- C8 (amended): linspace produces a Range with the given start, the step
`(stop - start) / (num - 1)` computed after converting stop to start's unit,
and count `num`; mixed units fail unless both or neither of start/stop carry a
unit; num must be a unitless integer and only a negative num fails (num = 0 is
accepted and yields an empty Range); concretely linspace(0,10,5) yields the 5
values 0, 2.5, 5, 7.5, 10 and linspace(0mm,1cm,3) yields the mm values
0, 5, 10. -/
theorem linspace_spec :
    (∀ (start stop : Number) (n : ℤ),
      (start.unit = Unit.None ↔ stop.unit = Unit.None) → 0 ≤ n →
      builtin_linspace start stop ⟨.Integer n, .None⟩ =
        .ok (.Range start
          ((stop.convert_unit start.unit - start) / Number.from_int (n - 1))
          n.toNat)) ∧
    (∀ start stop num : Number,
      start.unit = Unit.None → stop.unit ≠ Unit.None → num.unit = Unit.None →
      builtin_linspace start stop num =
        .error "start must have a unit if stop has a unit") ∧
    (∀ start stop num : Number,
      start.unit ≠ Unit.None → stop.unit = Unit.None → num.unit = Unit.None →
      builtin_linspace start stop num =
        .error "stop must have a unit if start has a unit") ∧
    (∀ (start stop : Number) (f : ℚ),
      (start.unit = Unit.None ↔ stop.unit = Unit.None) →
      builtin_linspace start stop ⟨.Float f, .None⟩ =
        .error "num argument must be an integer") ∧
    (∀ (start stop : Number) (n : ℤ),
      (start.unit = Unit.None ↔ stop.unit = Unit.None) → n < 0 →
      builtin_linspace start stop ⟨.Integer n, .None⟩ =
        .error "num argument must be a positive integer") ∧
    (builtin_linspace (.from_int 0) (.from_int 10) (.from_int 5) =
        .ok (.Range (Number.from_int 0) (Number.from_float (5/2)) 5) ∧
      rangeValues (Number.from_int 0) (Number.from_float (5/2)) 5 =
        [.from_float 0, .from_float (5/2), .from_float 5,
          .from_float (15/2), .from_float 10]) ∧
    (builtin_linspace ⟨.Integer 0, .MM⟩ ⟨.Integer 1, .CM⟩ (.from_int 3) =
        .ok (.Range ⟨.Integer 0, .MM⟩ ⟨.Float 5, .MM⟩ 3) ∧
      rangeValues ⟨.Integer 0, .MM⟩ ⟨.Float 5, .MM⟩ 3 =
        [⟨.Float 0, .MM⟩, ⟨.Float 5, .MM⟩, ⟨.Float 10, .MM⟩]) := by
  refine ⟨?_, ?_, ?_, ?_, ?_, ⟨?_, ?_⟩, ⟨?_, ?_⟩⟩
  · intro start stop n hu hn
    have h1 : ¬ (start.unit = Unit.None ∧ ¬ stop.unit = Unit.None) := by
      rintro ⟨ha, hb⟩ ; exact hb (hu.mp ha)
    have h2 : ¬ (¬ start.unit = Unit.None ∧ stop.unit = Unit.None) := by
      rintro ⟨ha, hb⟩ ; exact ha (hu.mpr hb)
    simp [builtin_linspace, h1, h2, not_lt.mpr hn]
  · intro start stop num ha hb hn
    simp [builtin_linspace, ha, hb, hn]
  · intro start stop num ha hb hn
    simp [builtin_linspace, ha, hb, hn]
  · intro start stop f hu
    have h1 : ¬ (start.unit = Unit.None ∧ ¬ stop.unit = Unit.None) := by
      rintro ⟨ha, hb⟩ ; exact hb (hu.mp ha)
    have h2 : ¬ (¬ start.unit = Unit.None ∧ stop.unit = Unit.None) := by
      rintro ⟨ha, hb⟩ ; exact ha (hu.mpr hb)
    simp [builtin_linspace, h1, h2]
  · intro start stop n hu hn
    have h1 : ¬ (start.unit = Unit.None ∧ ¬ stop.unit = Unit.None) := by
      rintro ⟨ha, hb⟩ ; exact hb (hu.mp ha)
    have h2 : ¬ (¬ start.unit = Unit.None ∧ stop.unit = Unit.None) := by
      rintro ⟨ha, hb⟩ ; exact ha (hu.mpr hb)
    simp [builtin_linspace, h1, h2, hn]
  · simp [builtin_linspace, Number.from_int, Number.from_float,
      number_sub_def, number_div_def, Number.applyOp, convert_units_for_math,
      Number.convert_unit, InnerValue.applyOp, InnerValue.sub, InnerValue.div,
      InnerValue.as_float]
    norm_num
  · simp [rangeValues, List.range_succ, number_add_def, number_mul_def,
      Number.applyOp, convert_units_for_math, Number.convert_unit,
      InnerValue.applyOp, InnerValue.add, InnerValue.mul, InnerValue.as_float,
      Number.from_int, Number.from_float]
    norm_num
  · simp [builtin_linspace, Number.from_int, Number.from_float,
      number_sub_def, number_div_def, Number.applyOp, convert_units_for_math,
      Number.convert_unit, InnerValue.applyOp, InnerValue.sub, InnerValue.div,
      InnerValue.as_float]
    norm_num
  · simp [rangeValues, List.range_succ, number_add_def, number_mul_def,
      Number.applyOp, convert_units_for_math, Number.convert_unit,
      InnerValue.applyOp, InnerValue.add, InnerValue.mul, InnerValue.as_float,
      Number.from_int, Number.from_float]
    norm_num

end Gcad

namespace Gcad

/-- C8 counterexample: linspace(0, 10, 0) succeeds, returning an empty Range
with step (10−0)/(0−1) = −10 — the claimed requirement that num coerce to a
positive count ≥ 1 is not enforced by the code (only negative and non-integer
num fail). -/
theorem linspace_zero_count_succeeds :
    builtin_linspace (.from_int 0) (.from_int 10) (.from_int 0) =
      .ok (.Range (Number.from_int 0) (Number.from_float (-10)) 0) := by
  simp [builtin_linspace, Number.from_int, Number.from_float, number_sub_def,
    number_div_def, Number.applyOp, convert_units_for_math,
    Number.convert_unit, InnerValue.applyOp, InnerValue.sub, InnerValue.div,
    InnerValue.as_float]
  norm_num

/-- Witness for C8 at linspace(0, 10, 5). -/
theorem linspace_spec_witness :
    builtin_linspace (Number.mk (.Integer 0) .None)
        (Number.mk (.Integer 10) .None) ⟨.Integer 5, .None⟩ =
      .ok (.Range (Number.mk (.Integer 0) .None)
        (((Number.mk (.Integer 10) .None).convert_unit
            (Number.mk (.Integer 0) .None).unit -
          Number.mk (.Integer 0) .None) / Number.from_int (5 - 1))
        (Int.toNat 5)) :=
  linspace_spec.1 ⟨.Integer 0, .None⟩ ⟨.Integer 10, .None⟩ 5 (by simp)
    (by norm_num)

end Gcad

namespace Gcad

/-- A declared builtin parameter, from the `ffi_func` proc-macro of
`proc_macros/src/lib.rs`: its name and whether its declared Rust type is
`Option<_>` (optional). -/
structure ParamSpec where
  pname : String
  optional : Bool
deriving DecidableEq, Repr

/-- Source: `nargs.remove(ident)` on the named-argument map: return the value
stored under the key (first occurrence) and the map without that entry. -/
def removeNamed (nargs : List (String × ScriptValue)) (k : String) :
    Option ScriptValue × List (String × ScriptValue) :=
  match nargs with
  | [] => (none, [])
  | (k2, v) :: rest =>
      if k2 = k then (some v, rest)
      else
        let r := removeNamed rest k
        (r.1, (k2, v) :: r.2)

/-- Source: the per-parameter binding statements generated by `ffi_func`, in
declaration order: take the next positional argument, override it with the
named argument of the parameter's name when present, and fail on an
unresolved required parameter. Returns the bound values together with the
unconsumed positional and named arguments. -/
def bindLoop (fname : String) : List ParamSpec → List ScriptValue →
    List (String × ScriptValue) →
    Except String
      (List (Option ScriptValue) × List ScriptValue ×
        List (String × ScriptValue))
  | [], posArgs, nargs => .ok ([], posArgs, nargs)
  | p :: ps, posArgs, nargs =>
      let r := removeNamed nargs p.pname
      let av : Option ScriptValue :=
        match r.1 with
        | some v => some v
        | none => posArgs.head?
      if p.optional then
        match bindLoop fname ps posArgs.tail r.2 with
        | .error e => .error e
        | .ok q => .ok (av :: q.1, q.2.1, q.2.2)
      else
        match av with
        | none => .error (fname ++ ": " ++ p.pname ++ " is required")
        | some v =>
            match bindLoop fname ps posArgs.tail r.2 with
            | .error e => .error e
            | .ok q => .ok (some v :: q.1, q.2.1, q.2.2)

/-- Source: the `_ffi` wrapper generated by `ffi_func`: run the parameter
binders, then fail on leftover positional arguments (arity error) and on any
leftover named argument (unknown-argument error). -/
def bindArgs (fname : String) (params : List ParamSpec)
    (posArgs : List ScriptValue) (nargs : List (String × ScriptValue)) :
    Except String (List (Option ScriptValue)) :=
  match bindLoop fname params posArgs nargs with
  | .error e => .error e
  | .ok q =>
      if q.2.1 ≠ [] then
        .error (fname ++ ": too many arguments, expected " ++
          toString params.length ++ ", got " ++ toString posArgs.length)
      else
        match q.2.2 with
        | (k, _) :: _ => .error (fname ++ ": unknown named argument " ++ k)
        | [] => .ok q.1

theorem removeNamed_fst (k : String) (nargs : List (String × ScriptValue)) :
    (removeNamed nargs k).1 = nargs.lookup k := by
  induction nargs with
  | nil => rfl
  | cons h t ih =>
      obtain ⟨k2, v2⟩ := h
      by_cases hk : k2 = k
      · subst hk
        simp [removeNamed, List.lookup]
      · have hb : (k == k2) = false := beq_eq_false_iff_ne.mpr (Ne.symm hk)
        simp [removeNamed, hk, List.lookup, ih, hb]

theorem removeNamed_lookup_other (k k2 : String) (h : k ≠ k2)
    (nargs : List (String × ScriptValue)) :
    ((removeNamed nargs k2).2).lookup k = nargs.lookup k := by
  induction nargs with
  | nil => rfl
  | cons hd t ih =>
      obtain ⟨k3, v3⟩ := hd
      by_cases hk : k3 = k2
      · subst hk
        have : (k == k3) = false := beq_eq_false_iff_ne.mpr h
        simp [removeNamed, List.lookup, this]
      · by_cases hk2 : k = k3
        · subst hk2
          simp [removeNamed, hk, List.lookup]
        · have : (k == k3) = false := beq_eq_false_iff_ne.mpr hk2
          simp [removeNamed, hk, List.lookup, this, ih]

end Gcad

namespace Gcad

theorem bindLoop_named (fname : String) (params : List ParamSpec) :
    ∀ (i : ℕ) (posArgs : List ScriptValue)
      (nargs : List (String × ScriptValue)) (p : ParamSpec) (v : ScriptValue)
      (q : List (Option ScriptValue) × List ScriptValue ×
        List (String × ScriptValue)),
      (params.map ParamSpec.pname).Nodup →
      params[i]? = some p →
      nargs.lookup p.pname = some v →
      bindLoop fname params posArgs nargs = .ok q →
      q.1[i]? = some (some v) := by
  induction params with
  | nil =>
      intro i _ _ p v q _ hp
      simp at hp
  | cons p0 ps ih =>
      intro i posArgs nargs p v q hnd hp hlook hbind
      cases i with
      | zero =>
          simp at hp
          subst hp
          have hr : (removeNamed nargs p0.pname).1 = some v := by
            rw [removeNamed_fst]
            exact hlook
          simp only [bindLoop, hr] at hbind
          by_cases hopt : p0.optional = true <;>
            simp only [hopt, if_true, if_false, Bool.false_eq_true] at hbind <;>
            ( cases hrec : bindLoop fname ps posArgs.tail
                (removeNamed nargs p0.pname).2 with
              | error e => simp [hrec] at hbind
              | ok q2 =>
                  simp only [hrec, Except.ok.injEq] at hbind
                  subst hbind
                  simp )
      | succ i =>
          simp only [List.getElem?_cons_succ] at hp
          rw [List.map_cons] at hnd
          rcases List.nodup_cons.mp hnd with ⟨hnotin, hnd2⟩
          have hpm : p ∈ ps := by
            have := List.getElem?_eq_some_iff.mp hp
            obtain ⟨hlt, hg⟩ := this
            exact hg ▸ List.getElem_mem hlt
          have hne : p.pname ≠ p0.pname :=
            fun he => hnotin (he ▸ List.mem_map_of_mem ParamSpec.pname hpm)
          have hlook2 : ((removeNamed nargs p0.pname).2).lookup p.pname =
              some v := by
            rw [removeNamed_lookup_other _ _ hne]
            exact hlook
          simp only [bindLoop] at hbind
          by_cases hopt : p0.optional = true <;>
            simp only [hopt, if_true, if_false, Bool.false_eq_true] at hbind
          · cases hrec : bindLoop fname ps posArgs.tail
                (removeNamed nargs p0.pname).2 with
            | error e => simp [hrec] at hbind
            | ok q2 =>
                simp only [hrec, Except.ok.injEq] at hbind
                subst hbind
                simpa using ih i posArgs.tail _ p v q2 hnd2 hp hlook2 hrec
          · cases hav : (match (removeNamed nargs p0.pname).1 with
              | some w => some w
              | none => posArgs.head? : Option ScriptValue) with
            | none => simp [hav] at hbind
            | some w =>
                simp only [hav] at hbind
                cases hrec : bindLoop fname ps posArgs.tail
                    (removeNamed nargs p0.pname).2 with
                | error e => simp [hrec] at hbind
                | ok q2 =>
                    simp only [hrec, Except.ok.injEq] at hbind
                    subst hbind
                    simpa using ih i posArgs.tail _ p v q2 hnd2 hp hlook2 hrec

/-- C5: when a declared parameter receives both a positional argument at its
declared index and a named argument with the parameter's name, the bound
value is the named argument's value — the named argument always overrides the
positional one. -/
theorem named_overrides_positional (fname : String) (params : List ParamSpec)
    (posArgs : List ScriptValue) (nargs : List (String × ScriptValue))
    (i : ℕ) (p : ParamSpec) (v : ScriptValue)
    (bound : List (Option ScriptValue))
    (hnd : (params.map ParamSpec.pname).Nodup)
    (hp : params[i]? = some p)
    (_hpos : i < posArgs.length)
    (hlook : nargs.lookup p.pname = some v)
    (hbind : bindArgs fname params posArgs nargs = .ok bound) :
    bound[i]? = some (some v) := by
  rw [bindArgs] at hbind
  cases hq : bindLoop fname params posArgs nargs with
  | error e => simp [hq] at hbind
  | ok q =>
      simp only [hq] at hbind
      by_cases hrest : q.2.1 ≠ []
      · simp [hrest] at hbind
      · simp only [hrest, if_false, if_neg hrest] at hbind
        cases hn : q.2.2 with
        | cons kv t => simp [hn] at hbind
        | nil =>
            simp only [hn, Except.ok.injEq] at hbind
            subst hbind
            exact bindLoop_named fname params i posArgs nargs p v q hnd hp
              hlook hq

/-- Witness for C5: parameter y at index 1 receives positional 2 and named 7;
the bound value is 7. -/
theorem named_overrides_positional_witness :
    ([some (ScriptValue.Number (Number.from_int 1)),
      some (ScriptValue.Number (Number.from_int 7))] :
        List (Option ScriptValue))[1]? =
      some (some (ScriptValue.Number (Number.from_int 7))) :=
  named_overrides_positional "f"
    [⟨"x", false⟩, ⟨"y", false⟩]
    [.Number (Number.from_int 1), .Number (Number.from_int 2)]
    [("y", .Number (Number.from_int 7))]
    1 ⟨"y", false⟩ (.Number (Number.from_int 7))
    [some (.Number (Number.from_int 1)), some (.Number (Number.from_int 7))]
    (by decide) (by decide) (by decide) (by rfl) (by rfl)

end Gcad
